import Mathlib

/-!
Verification of the request-router core of `splunk-persistentconn`
(`src/handler_registry.go`): pattern translation (`translatePatternToRegexp`),
route construction (`newRoute`), the registry (`handlerRegistry`), dispatch
(`getHandler`) and registration (`register`), together with an executable
model of the slice of Go's `regexp` library that those functions use
(`regexp.MustCompile` and `Regexp.FindStringSubmatch`).
-/

namespace Persistentconn

/-! ## String helpers

Go strings are modelled as `String` (with `String.data : List Char`); the
splitting and joining done by `strings.Split` / `strings.Join` in
`translatePatternToRegexp` are modelled by structurally recursive functions
over the character list so that every definition evaluates by kernel
reduction. -/

/-- Model of Go `strings.Split(s, "/")` restricted to a one-character
separator: splits into the (possibly empty) pieces between occurrences of
`sep`, always returning at least one piece. -/
def splitOnChar (sep : Char) : List Char → List (List Char)
  | [] => [[]]
  | c :: rest =>
    let r := splitOnChar sep rest
    if c = sep then [] :: r
    else
      match r with
      | s :: ss => (c :: s) :: ss
      | [] => [[c]]

/-- Model of Go `strings.Join(pieces, "/")` restricted to a one-character
separator. -/
def intercalateChar (sep : Char) : List (List Char) → List Char
  | [] => []
  | [s] => s
  | s :: rest => s ++ sep :: intercalateChar sep rest

/-- Model of Go `strings.HasPrefix(p, ":")`. -/
def hasPrefixColon : List Char → Bool
  | ':' :: _ => true
  | _ => false

/-! ## Pattern translation (src/handler_registry.go lines 43-55) -/

/-- The body of the loop of `translatePatternToRegexp`
(src/handler_registry.go lines 46-51): a segment starting with `:` is
replaced by `fmt.Sprintf("(?P<%s>[\S|^\/]+)", p[1:])`, any other segment is
passed through unchanged. -/
def translateSegment (p : List Char) : List Char :=
  if hasPrefixColon p then "(?P<".data ++ p.tail ++ ">[\\S|^\\/]+)".data
  else p

/-- `translatePatternToRegexp` (src/handler_registry.go lines 43-55): split
the pattern on `/`, translate each segment, join the results with `/`,
producing the regexp string handed to `regexp.MustCompile`. -/
def translatePatternToRegexp (pathPattern : String) : String :=
  ⟨intercalateChar '/' ((splitOnChar '/' pathPattern.data).map translateSegment)⟩

/-! ## Model of the Go `regexp` library

The Go standard library is not part of this repository; the definitions in
this section model, from Go's documented behavior, exactly the regexp
features exercised by the strings `translatePatternToRegexp` produces:
sequences of literal characters, a bracket character class, one-or-more
repetition of such a class (greedy), and named capturing groups
`(?P<name>...)`. `FindStringSubmatch` performs an UNANCHORED leftmost-first
(Perl-preference) search: earliest starting position wins, and at that
position a greedy repetition prefers consuming more characters. -/

/-- One item of a bracket character class: a plain character, or the Perl
class `\s` (`complement := false`) / `\S` (`complement := true`). Go's `\s`
is the whitespace set `[\t\n\f\r ]`. -/
inductive ClsItem where
  | ch (c : Char)
  | perlSpace (complement : Bool)
deriving DecidableEq, Repr

/-- Go regexp whitespace, the set matched by `\s`: tab, newline, form feed,
carriage return, space. -/
def goIsSpace (c : Char) : Bool :=
  c = '\t' || c = '\n' || c = '\x0c' || c = '\r' || c = ' '

/-- Does a single class item match a character? -/
def clsItemMatches (c : Char) : ClsItem → Bool
  | .ch d => c = d
  | .perlSpace compl => if compl then !goIsSpace c else goIsSpace c

/-- Does the bracket class `[items]` (or `[^items]` when `neg` is set)
match a character? A character matches a non-negated class when it matches
any item of the union. -/
def clsMatches (neg : Bool) (items : List ClsItem) (c : Char) : Bool :=
  let m := items.any (clsItemMatches c)
  if neg then !m else m

/-- Abstract syntax of the regexp fragment the translated patterns use. -/
inductive GoRe where
  | eps
  | lit (c : Char)
  | cls (neg : Bool) (items : List ClsItem)
  | plus1 (neg : Bool) (items : List ClsItem)
  | group (name : String) (inner : GoRe)
  | seq (a b : GoRe)
deriving DecidableEq, Repr

/-- The compiled form of the class `[\S|^\/]+` that a parameter segment
produces. Inside a bracket class `\S`, `|`, `^` (not first) and `\/` are
all ordinary items of a union, so the class matches any non-whitespace
character — in particular it DOES match `/`. -/
def paramCls : GoRe :=
  .plus1 false [.perlSpace true, .ch '|', .ch '^', .ch '/']

/-- Capture-group names accepted by Go's regexp parser: word characters. -/
def goWordChar (c : Char) : Bool :=
  c.isAlpha || c.isDigit || c = '_'

/-- The regexp metacharacters; a segment free of them is compiled by Go as
the literal sequence of its characters. -/
def regexMeta (c : Char) : Bool :=
  c = '\\' || c = '^' || c = '$' || c = '.' || c = '|' || c = '?' ||
  c = '*' || c = '+' || c = '(' || c = ')' || c = '[' || c = ']' ||
  c = '{' || c = '}'

/-- Number of capturing groups in a compiled regexp. -/
def countGroups : GoRe → Nat
  | .group _ inner => countGroups inner + 1
  | .seq a b => countGroups a + countGroups b
  | _ => 0

/-- Modelled from Go's `regexp.MustCompile` (outside this repository):
compilation of the regexp text that `translateSegment` produces for one
pattern segment.

A parameter segment `:name` yields the text `(?P<name>[\S|^\/]+)`, which Go
compiles to a named capturing group over one-or-more repetitions of that
class; Go rejects it (so `MustCompile` panics, modelled by `none`) when the
name is empty or contains a non-word character ("invalid named capture").
Go places no uniqueness requirement on group names: multiple groups may
share the same name, as in `(?P<bob>a+)(?P<bob>b+)` from the
`Regexp.SubexpIndex` documentation, so no duplicate check is modelled. A
literal segment is modelled only when it is free of regexp metacharacters,
in which case Go compiles it to its characters matched literally. Segments
outside this fragment — literal segments containing a metacharacter, or a
parameter name containing `>` (which ends the group name early in the
produced text) — are mapped to `none` and are NOT asserted to make Go
fail: Go rejects some of them (e.g. an unmatched `(`) and accepts others
with non-literal semantics; no theorem below evaluates compilation on such
a segment. -/
def compileSegment (p : List Char) : Option (List GoRe) :=
  if hasPrefixColon p then
    if p.tail.isEmpty then none
    else if !p.tail.all goWordChar then none
    else some [.group ⟨p.tail⟩ paramCls]
  else if p.all (fun c => !regexMeta c) then some (p.map GoRe.lit) else none

/-- Compilation of the whole joined regexp string, segment by segment: the
`/` separators inserted by `translatePatternToRegexp` are literal
characters between the per-segment fragments. Each segment's fragment is
self-delimiting (a fully parenthesised group or a metacharacter-free
literal), so compiling the concatenation is the concatenation of the
compiled fragments. -/
def compileSegsTokens : List (List Char) → Option (List GoRe)
  | [] => some []
  | p :: ps =>
    match compileSegment p with
    | none => none
    | some toks =>
      match ps with
      | [] => some toks
      | _ :: _ =>
        match compileSegsTokens ps with
        | none => none
        | some rest => some (toks ++ GoRe.lit '/' :: rest)

/-- Right-nested sequencing of a token list. -/
def seqList : List GoRe → GoRe
  | [] => .eps
  | r :: rs => .seq r (seqList rs)

/-- Model of `regexp.MustCompile(translatePatternToRegexp(pathPattern))`
as performed by `newRoute` (src/handler_registry.go lines 31 and 53):
`none` models a `MustCompile` panic. -/
def compileTranslatedPattern (pathPattern : String) : Option GoRe :=
  match compileSegsTokens (splitOnChar '/' pathPattern.data) with
  | none => none
  | some toks => some (seqList toks)

/-! ## Matching: model of `Regexp.FindStringSubmatch` -/

/-- Length of the longest prefix of `s` whose characters all match the
class. -/
def maxRun (neg : Bool) (items : List ClsItem) : List Char → Nat
  | [] => 0
  | c :: rest => if clsMatches neg items c then maxRun neg items rest + 1 else 0

/-- The states reachable by the greedy `[class]+`, in preference order:
consume as many matching characters as possible first, down to one; no
state when no character matches. -/
def plusStates (neg : Bool) (items : List ClsItem) (s : List Char)
    (caps : List (String × String)) : List (List Char × List (String × String)) :=
  let n := maxRun neg items s
  (List.range n).map (fun i => (s.drop (n - i), caps))

/-- Record (or overwrite) a named capture. -/
def setCap (caps : List (String × String)) (name val : String) : List (String × String) :=
  match caps with
  | [] => [(name, val)]
  | (n, v) :: rest => if n = name then (n, val) :: rest else (n, v) :: setCap rest name val

/-- Backtracking matcher: all `(remaining suffix, captures)` states after
matching `re` against a prefix of `s`, in Perl preference order (the head
is the state the leftmost-first semantics commits to). -/
def runRe (re : GoRe) : List Char → List (String × String) → List (List Char × List (String × String)) :=
  match re with
  | .eps => fun s caps => [(s, caps)]
  | .lit c => fun s caps =>
    match s with
    | [] => []
    | x :: rest => if x = c then [(rest, caps)] else []
  | .cls neg items => fun s caps =>
    match s with
    | [] => []
    | x :: rest => if clsMatches neg items x then [(rest, caps)] else []
  | .plus1 neg items => fun s caps => plusStates neg items s caps
  | .group name inner => fun s caps =>
    (runRe inner s caps).map (fun st =>
      (st.1, setCap st.2 name ⟨s.take (s.length - st.1.length)⟩))
  | .seq a b => fun s caps =>
    (runRe a s caps).flatMap (fun st => runRe b st.1 st.2)

/-- Scan of starting positions, earliest first; at the first position where
the regexp matches, return the matched text and the captures of the
preferred match. -/
def searchFrom (re : GoRe) : List Char → Option (String × List (String × String))
  | [] =>
    match (runRe re [] []).head? with
    | some (_, caps) => some ("", caps)
    | none => none
  | c :: rest =>
    match (runRe re (c :: rest) []).head? with
    | some (s', caps) =>
      some (⟨(c :: rest).take ((c :: rest).length - s'.length)⟩, caps)
    | none => searchFrom re rest

/-- Model of Go `Regexp.FindStringSubmatch` (used at
src/handler_registry.go line 66): `none` models the `nil` result (no match
anywhere in the path — note the search is unanchored), `some (m, caps)`
models a non-empty result slice whose first element is the leftmost match
`m`, with the named captures `caps`. `len(matches) > 0` in the Go code is
`isSome` here. -/
def findStringSubmatch (re : GoRe) (path : String) : Option (String × List (String × String)) :=
  searchFrom re path.data

/-! ## Requests, responses, handlers (spec section 3; the `Request` and
`Response` types live outside src/) -/

/-- Modelled from the spec: the `Request` consumed by the dispatcher, with
the two fields `getHandler` reads (src/handler_registry.go line 66). -/
structure Request where
  Path : String
  Method : String
deriving DecidableEq, Repr

/-- Modelled from the spec: the `Response` a handler produces — a status
code and a body. `http.StatusNotFound` is 404. -/
structure Response where
  StatusCode : Nat
  Body : String
deriving DecidableEq, Repr

/-- `Handler` (src/handler_registry.go line 11): a function from a request
to a response and an error; the Go `error` result is modelled by
`Option String`, with `none` for a nil error. -/
abbrev Handler := Request → Response × Option String

/-- `NoMatchingHandler` (src/handler_registry.go lines 15-20). -/
def NoMatchingHandler : Handler := fun _ =>
  ({ StatusCode := 404, Body := "The requested path is not found." }, none)

/-! ## Routes and the registry (src/handler_registry.go lines 22-78) -/

/-- `route` (src/handler_registry.go lines 23-27): a compiled pattern, a
handler and the allowed methods. -/
structure route where
  Pattern : GoRe
  Handler : Handler
  Methods : List String

/-- `newRoute` (src/handler_registry.go lines 30-37): compile the pattern
and build the route; `none` models the `MustCompile` panic on an invalid
pattern. -/
def newRoute (pathPattern : String) (handler : Handler) (allowedMethods : List String) : Option route :=
  match compileTranslatedPattern pathPattern with
  | none => none
  | some re => some { Pattern := re, Handler := handler, Methods := allowedMethods }

/-- `handlerRegistry` (src/handler_registry.go lines 58-60). -/
structure handlerRegistry where
  routes : List route

/-- Modelled from the spec: the repository's `contains` helper is not under
src/ (only its call site at src/handler_registry.go line 66 is); per the
spec, method comparison is exact, case-sensitive string membership. -/
def contains (l : List String) (s : String) : Bool :=
  l.contains s

/-- The condition of the `if` at src/handler_registry.go line 66:
`len(rt.Pattern.FindStringSubmatch(req.Path)) > 0 && contains(rt.Methods, req.Method)`. -/
def routeMatches (rt : route) (req : Request) : Bool :=
  (findStringSubmatch rt.Pattern req.Path).isSome && contains rt.Methods req.Method

/-- The `for` loop of `getHandler` (src/handler_registry.go lines 65-70):
return the first route whose condition holds, else fall through. -/
def getHandlerLoop : List route → Request → Handler
  | [], _ => NoMatchingHandler
  | rt :: rest, req =>
    if routeMatches rt req then rt.Handler else getHandlerLoop rest req

/-- `handlerRegistry.getHandler` (src/handler_registry.go lines 63-72):
scan the routes in order; the local `handler := NoMatchingHandler` default
is returned when the loop finds no match. -/
def handlerRegistry.getHandler (rg : handlerRegistry) (req : Request) : Handler :=
  getHandlerLoop rg.routes req

/-- `handlerRegistry.register` (src/handler_registry.go lines 75-78):
build the route and append it; `none` models the `MustCompile` panic
propagating out of `newRoute`. -/
def handlerRegistry.register (rg : handlerRegistry) (path : String) (handler : Handler)
    (allowedMethods : List String) : Option handlerRegistry :=
  match newRoute path handler allowedMethods with
  | none => none
  | some rt => some { routes := rg.routes ++ [rt] }

/-! ## Well-formedness of pattern segments

These predicates characterise the patterns on which compilation is total;
they follow the spec's notion of a syntactically well-formed pattern
(section 4.1), restricted to the fragment on which Go's compiler actually
succeeds: literal segments free of regexp metacharacters, and parameter
segments with a non-empty word-character name. -/

/-- A single segment is well formed: a parameter segment has a non-empty
name of word characters; a literal segment has no regexp metacharacter. -/
def segWellFormed (p : List Char) : Bool :=
  if hasPrefixColon p then !p.tail.isEmpty && p.tail.all goWordChar
  else p.all (fun c => !regexMeta c)

/-! ## Concrete routes and handlers used by the concrete theorems below -/

/-- A concrete handler for the `/health` route. -/
def healthHandler : Handler := fun _ => ({ StatusCode := 200, Body := "healthy" }, none)

/-- The registry obtained by registering only `("/health", healthHandler, ["GET"])`. -/
def healthRegistry : handlerRegistry :=
  (handlerRegistry.register ⟨[]⟩ "/health" healthHandler ["GET"]).getD ⟨[]⟩

/-- The compiled matcher of the pattern `/users/:id/items`. -/
def usersItemsRe : GoRe := (compileTranslatedPattern "/users/:id/items").getD .eps

/-- The compiled matcher of the pattern `/foo:bar` (colon not at the start
of the segment). -/
def fooBarRe : GoRe := (compileTranslatedPattern "/foo:bar").getD .eps

/-- The compiled matcher of the literal pattern `/x`. -/
def slashXRe : GoRe := (compileTranslatedPattern "/x").getD .eps

/-- Three concrete handlers, pairwise distinguishable by their bodies. -/
def handlerA : Handler := fun _ => ({ StatusCode := 200, Body := "A" }, none)

/-- Second concrete handler. -/
def handlerB : Handler := fun _ => ({ StatusCode := 200, Body := "B" }, none)

/-- Third concrete handler. -/
def handlerC : Handler := fun _ => ({ StatusCode := 200, Body := "C" }, none)

/-- A route for `/x` carrying `handlerA`, allowing only GET. -/
def routeA : route := { Pattern := slashXRe, Handler := handlerA, Methods := ["GET"] }

/-- A route for `/x` carrying `handlerB`, allowing only GET. -/
def routeB : route := { Pattern := slashXRe, Handler := handlerB, Methods := ["GET"] }

/-- A route for `/x` carrying `handlerC`, allowing only GET. -/
def routeC : route := { Pattern := slashXRe, Handler := handlerC, Methods := ["GET"] }

/-- A route for `/x` registered with an empty allowed-methods list. -/
def routeEmptyM : route := { Pattern := slashXRe, Handler := handlerA, Methods := [] }

/-- A registry in which `routeC` was registered before `routeA`, which was
registered before `routeB`. -/
def cexRegistry : handlerRegistry := ⟨[routeC, routeA, routeB]⟩

/-- A GET request for `/x`, accepted by the matcher of all three routes. -/
def cexReq : Request := { Path := "/x", Method := "GET" }

/-! ## Dispatch-loop lemmas -/

/-- Routes failing the match-and-method test are transparent to the scan:
prepending them does not change the selected handler. -/
theorem getHandlerLoop_append_skip (rs₁ rs₂ : List route) (req : Request)
    (h : ∀ r ∈ rs₁, routeMatches r req = false) :
    getHandlerLoop (rs₁ ++ rs₂) req = getHandlerLoop rs₂ req := by
  induction rs₁ with
  | nil => rfl
  | cons q qs ih =>
    have hq : routeMatches q req = false := h q (by simp)
    simp only [List.cons_append, getHandlerLoop, hq, Bool.false_eq_true, if_false]
    exact ih (fun r hr => h r (by simp [hr]))

/-- A route failing the match-and-method test anywhere in the table is
transparent to the scan: removing it does not change the selected handler. -/
theorem getHandlerLoop_erase_unmatched (rs₁ rs₂ : List route) (r : route) (req : Request)
    (h : routeMatches r req = false) :
    getHandlerLoop (rs₁ ++ r :: rs₂) req = getHandlerLoop (rs₁ ++ rs₂) req := by
  induction rs₁ with
  | nil => simp [getHandlerLoop, h]
  | cons q qs ih =>
    by_cases hq : routeMatches q req <;>
      simp [getHandlerLoop, hq, ih]

/-- When no route passes the match-and-method test, the scan falls through
to the default handler. -/
theorem getHandlerLoop_eq_default (rs : List route) (req : Request)
    (h : ∀ r ∈ rs, routeMatches r req = false) :
    getHandlerLoop rs req = NoMatchingHandler := by
  induction rs with
  | nil => rfl
  | cons q qs ih =>
    have hq : routeMatches q req = false := h q (by simp)
    simp only [getHandlerLoop, hq, Bool.false_eq_true, if_false]
    exact ih (fun r hr => h r (by simp [hr]))

/-! ## Claim theorems -/

/-- C1: the claim asserts that with the single registered pattern
`/health`, dispatch selects the route's handler for path `/health` but not
for `/health/` or `/healthcheck`. The code violates the last two parts:
the translated regexp carries no anchors and `FindStringSubmatch` searches
for the pattern anywhere in the path, so `/health` is found as a substring
of `/health/` and of `/healthcheck` and dispatch selects the route's
handler for all three paths. -/
theorem health_route_unanchored_match :
    handlerRegistry.getHandler healthRegistry { Path := "/health", Method := "GET" } = healthHandler
    ∧ handlerRegistry.getHandler healthRegistry { Path := "/health/", Method := "GET" } = healthHandler
    ∧ handlerRegistry.getHandler healthRegistry { Path := "/healthcheck", Method := "GET" } = healthHandler :=
  ⟨rfl, rfl, rfl⟩

/-- C2: the claim asserts that the matcher of `/users/:id/items` accepts
`/users/42/items` with `id = "42"` (which holds) and rejects
`/users/42/43/items` (which fails on the code): the bracket expression
`[\S|^\/]` is a union that contains `/`, so the parameter capture spans
the `/` boundary and the extra-segment path matches with `id = "42/43"`. -/
theorem param_capture_crosses_slash :
    findStringSubmatch usersItemsRe "/users/42/items" = some ("/users/42/items", [("id", "42")])
    ∧ findStringSubmatch usersItemsRe "/users/42/43/items" = some ("/users/42/43/items", [("id", "42/43")])
    ∧ (findStringSubmatch usersItemsRe "/users/42/43/items").isSome = true := by
  refine ⟨by decide, by decide, by decide⟩

/-- C5: method gating. A route whose allowed-methods list is `["GET"]` is
transparent to the dispatch of a request with method `"POST"`: membership
is exact and case-sensitive, the scan continues past the route, and when
no other route passes the test the dispatch falls through to
`NoMatchingHandler`. -/
theorem method_gating (rs₁ rs₂ : List route) (r : route) (req : Request)
    (hm : r.Methods = ["GET"]) (hreq : req.Method = "POST") :
    contains r.Methods req.Method = false
    ∧ handlerRegistry.getHandler ⟨rs₁ ++ r :: rs₂⟩ req = handlerRegistry.getHandler ⟨rs₁ ++ rs₂⟩ req
    ∧ ((∀ r' ∈ rs₁ ++ rs₂, routeMatches r' req = false) →
        handlerRegistry.getHandler ⟨rs₁ ++ r :: rs₂⟩ req = NoMatchingHandler) := by
  have hc : contains r.Methods req.Method = false := by
    rw [hm, hreq]; decide
  have hr : routeMatches r req = false := by
    simp [routeMatches, hc]
  refine ⟨hc, getHandlerLoop_erase_unmatched rs₁ rs₂ r req hr, fun hnone => ?_⟩
  have := getHandlerLoop_erase_unmatched rs₁ rs₂ r req hr
  unfold handlerRegistry.getHandler
  rw [this]
  exact getHandlerLoop_eq_default _ req hnone

/-- Witness for C5 at a concrete input: the table holding only a GET-only
route for `/x` dispatches a POST for `/x` to `NoMatchingHandler`. -/
theorem method_gating_witness :
    handlerRegistry.getHandler ⟨[routeA]⟩ { Path := "/x", Method := "POST" } = NoMatchingHandler :=
  (method_gating [] [] routeA { Path := "/x", Method := "POST" } rfl rfl).2.2
    (by simp)

/-- C6: dispatch totality and fallback. On the empty route table dispatch
returns `NoMatchingHandler` for every request, and invoking
`NoMatchingHandler` yields status 404 (`http.StatusNotFound`), a non-empty
body, and a nil error. -/
theorem empty_table_fallback :
    (∀ req : Request, handlerRegistry.getHandler ⟨[]⟩ req = NoMatchingHandler)
    ∧ ∀ req : Request,
        (NoMatchingHandler req).1.StatusCode = 404
        ∧ (NoMatchingHandler req).1.Body ≠ ""
        ∧ (NoMatchingHandler req).2 = none :=
  ⟨fun _ => rfl, fun _ => ⟨rfl, by simp [NoMatchingHandler], rfl⟩⟩

/-- C7: dispatch is deterministic. For a fixed route table, two requests
with equal path and equal method select the same handler; the model of
`getHandler` is a pure function of the table and the request, so the table
is left unchanged by construction. -/
theorem dispatch_deterministic (rg : handlerRegistry) (req₁ req₂ : Request)
    (hp : req₁.Path = req₂.Path) (hm : req₁.Method = req₂.Method) :
    handlerRegistry.getHandler rg req₁ = handlerRegistry.getHandler rg req₂ := by
  cases req₁
  cases req₂
  cases hp
  cases hm
  rfl

/-- Witness for C7 at a concrete input. -/
theorem dispatch_deterministic_witness :
    handlerRegistry.getHandler healthRegistry { Path := "/health", Method := "GET" }
      = handlerRegistry.getHandler healthRegistry { Path := "/health", Method := "GET" } :=
  dispatch_deterministic healthRegistry
    { Path := "/health", Method := "GET" } { Path := "/health", Method := "GET" } rfl rfl

/-- C8: registration appends exactly one route at the end and changes
nothing else. Whenever `register` succeeds, the new route list is the old
one with one route appended, and that route carries the compiled matcher
of the given pattern, the given handler, and the given methods. -/
theorem register_appends (rg rg' : handlerRegistry) (path : String) (h : Handler)
    (ms : List String)
    (hreg : handlerRegistry.register rg path h ms = some rg') :
    ∃ rt, newRoute path h ms = some rt
      ∧ rg'.routes = rg.routes ++ [rt]
      ∧ rt.Handler = h ∧ rt.Methods = ms
      ∧ ∃ re, compileTranslatedPattern path = some re ∧ rt.Pattern = re := by
  unfold handlerRegistry.register at hreg
  cases hnr : newRoute path h ms with
  | none => rw [hnr] at hreg; cases hreg
  | some rt =>
    rw [hnr] at hreg
    have hrg : ({ routes := rg.routes ++ [rt] } : handlerRegistry) = rg' := by
      injection hreg
    unfold newRoute at hnr
    cases hcp : compileTranslatedPattern path with
    | none => rw [hcp] at hnr; cases hnr
    | some re =>
      rw [hcp] at hnr
      have hrt : ({ Pattern := re, Handler := h, Methods := ms } : route) = rt := by
        injection hnr
      refine ⟨rt, rfl, by rw [← hrg], ?_, ?_, re, rfl, ?_⟩
      · rw [← hrt]
      · rw [← hrt]
      · rw [← hrt]

/-- Witness for C8 at a concrete input: registering `/health` on the empty
registry appends exactly the compiled route. -/
theorem register_appends_witness :
    ∃ rt, newRoute "/health" healthHandler ["GET"] = some rt
      ∧ healthRegistry.routes = ([] : List route) ++ [rt]
      ∧ rt.Handler = healthHandler ∧ rt.Methods = ["GET"]
      ∧ ∃ re, compileTranslatedPattern "/health" = some re ∧ rt.Pattern = re :=
  register_appends ⟨[]⟩ healthRegistry "/health" healthHandler ["GET"] rfl

/-- C9: a route with an empty allowed-methods list is unreachable: the
membership test on the empty list is false for every method, so the route
is transparent to the scan, and a table holding only that route always
falls through to `NoMatchingHandler`. -/
theorem empty_methods_unreachable (rs₁ rs₂ : List route) (r : route) (req : Request)
    (hm : r.Methods = []) :
    contains r.Methods req.Method = false
    ∧ handlerRegistry.getHandler ⟨rs₁ ++ r :: rs₂⟩ req = handlerRegistry.getHandler ⟨rs₁ ++ rs₂⟩ req
    ∧ handlerRegistry.getHandler ⟨[r]⟩ req = NoMatchingHandler := by
  have hc : contains r.Methods req.Method = false := by
    rw [hm]; rfl
  have hr : routeMatches r req = false := by
    simp [routeMatches, hc]
  refine ⟨hc, getHandlerLoop_erase_unmatched rs₁ rs₂ r req hr, ?_⟩
  show getHandlerLoop [r] req = NoMatchingHandler
  exact getHandlerLoop_eq_default [r] req (by simpa using hr)

/-- Witness for C9 at a concrete input. -/
theorem empty_methods_unreachable_witness :
    handlerRegistry.getHandler ⟨[routeEmptyM]⟩ cexReq = NoMatchingHandler :=
  (empty_methods_unreachable [] [] routeEmptyM cexReq rfl).2.2

/-- C10: only a leading `:` creates a parameter. A segment that does not
start with `:` is passed through the translation unchanged (in particular
`foo:bar`, where `:` is not first), the translated pattern `/foo:bar` is
the unchanged text `/foo:bar`, its compiled form has no capturing group,
and matching it yields no named parameter. -/
theorem non_leading_colon_is_literal :
    (∀ seg : List Char, hasPrefixColon seg = false → translateSegment seg = seg)
    ∧ translatePatternToRegexp "/foo:bar" = "/foo:bar"
    ∧ compileTranslatedPattern "/foo:bar" = some fooBarRe
    ∧ countGroups fooBarRe = 0
    ∧ findStringSubmatch fooBarRe "/foo:bar" = some ("/foo:bar", []) := by
  refine ⟨?_, by decide, by decide, by decide, by decide⟩
  intro seg h
  simp [translateSegment, h]

/-- Witness for C10 at the concrete segment `foo:bar`. -/
theorem non_leading_colon_is_literal_witness :
    hasPrefixColon "foo:bar".data = false ∧ translateSegment "foo:bar".data = "foo:bar".data :=
  ⟨by decide, non_leading_colon_is_literal.1 "foo:bar".data (by decide)⟩

/-- C4, amended: first-match-wins. In a table of the form
`rs₁ ++ a :: rs₂ ++ b :: rs₃` — route `a` registered before route `b`,
with no route registered before `a` passing the match-and-method test —
whenever both `a`'s and `b`'s matchers accept the request's path and both
method sets contain the request's method, dispatch returns `a`'s handler,
and not `b`'s whenever the two handlers differ. -/
theorem first_match_wins (rs₁ rs₂ rs₃ : List route) (a b : route) (req : Request)
    (h₁ : ∀ r ∈ rs₁, routeMatches r req = false)
    (hpa : (findStringSubmatch a.Pattern req.Path).isSome = true)
    (hma : contains a.Methods req.Method = true)
    (_hpb : (findStringSubmatch b.Pattern req.Path).isSome = true)
    (_hmb : contains b.Methods req.Method = true) :
    handlerRegistry.getHandler ⟨rs₁ ++ a :: rs₂ ++ b :: rs₃⟩ req = a.Handler
    ∧ (a.Handler ≠ b.Handler →
        handlerRegistry.getHandler ⟨rs₁ ++ a :: rs₂ ++ b :: rs₃⟩ req ≠ b.Handler) := by
  have ha : routeMatches a req = true := by
    simp [routeMatches, hpa, hma]
  have hsel : handlerRegistry.getHandler ⟨rs₁ ++ a :: rs₂ ++ b :: rs₃⟩ req = a.Handler := by
    show getHandlerLoop (rs₁ ++ a :: rs₂ ++ b :: rs₃) req = a.Handler
    rw [List.append_assoc, getHandlerLoop_append_skip rs₁ (a :: rs₂ ++ b :: rs₃) req h₁]
    simp [getHandlerLoop, ha]
  exact ⟨hsel, fun hne => by rw [hsel]; exact hne⟩

/-- Counterexample for C4 as frozen: the claim quantifies over EVERY route
table in which `a` precedes `b` and both accept the request, but in the
table `[routeC, routeA, routeB]` — where `routeC` was registered before
`routeA` and also accepts the request — dispatch returns `routeC`'s
handler, not `routeA`'s, even though `routeA` precedes `routeB` and both
accept the GET request for `/x`. -/
theorem first_match_wins_counterexample :
    (findStringSubmatch routeA.Pattern cexReq.Path).isSome = true
    ∧ contains routeA.Methods cexReq.Method = true
    ∧ (findStringSubmatch routeB.Pattern cexReq.Path).isSome = true
    ∧ contains routeB.Methods cexReq.Method = true
    ∧ handlerRegistry.getHandler cexRegistry cexReq = routeC.Handler
    ∧ handlerRegistry.getHandler cexRegistry cexReq ≠ routeA.Handler := by
  refine ⟨by decide, by decide, by decide, by decide, rfl, ?_⟩
  have hsel : handlerRegistry.getHandler cexRegistry cexReq = handlerC := rfl
  rw [hsel]
  intro hEq
  have h2 := congrFun hEq cexReq
  have h3 := congrArg (fun pr => pr.1.Body) h2
  simp only [handlerC, handlerA, routeA] at h3
  exact absurd h3 (by decide)

/-- Witness for the amended C4 at a concrete input: with no routes before
`routeA`, the table `[routeA, routeB]` dispatches the shared GET request
for `/x` to `routeA`'s handler. -/
theorem first_match_wins_witness :
    handlerRegistry.getHandler ⟨[routeA, routeB]⟩ cexReq = routeA.Handler :=
  (first_match_wins [] [] [] routeA routeB cexReq (by simp)
    (by decide) (by decide) (by decide) (by decide)).1

/-! ## Totality of compilation on well-formed patterns -/

/-- On a well-formed segment, `compileSegment` succeeds. -/
theorem compileSegment_isSome (p : List Char)
    (hwf : segWellFormed p = true) :
    (compileSegment p).isSome = true := by
  cases hp : hasPrefixColon p with
  | false =>
    rw [segWellFormed, hp] at hwf
    simp only [Bool.false_eq_true, if_false] at hwf
    simp [compileSegment, hp, hwf]
  | true =>
    rw [segWellFormed, hp] at hwf
    simp only [if_true, Bool.and_eq_true] at hwf
    have he : p.tail.isEmpty = false := by
      have := hwf.1
      revert this
      cases p.tail.isEmpty <;> simp
    simp [compileSegment, hp, he, hwf.2]

/-- On a list of well-formed segments, segment-wise compilation of the
joined regexp succeeds; no condition relates the parameter names of
distinct segments, since Go accepts repeated capture group names. -/
theorem compileSegsTokens_isSome :
    ∀ (segs : List (List Char)),
    (∀ p ∈ segs, segWellFormed p = true) →
    (compileSegsTokens segs).isSome = true := by
  intro segs
  induction segs with
  | nil => intro _; rfl
  | cons p ps ih =>
    intro hseg
    obtain ⟨toks, hcs⟩ :=
      Option.isSome_iff_exists.mp (compileSegment_isSome p (hseg p (by simp)))
    have hrec : (compileSegsTokens ps).isSome = true :=
      ih (fun q hq => hseg q (by simp [hq]))
    cases ps with
    | nil => simp [compileSegsTokens, hcs]
    | cons q qs =>
      obtain ⟨rest, hres⟩ := Option.isSome_iff_exists.mp hrec
      rw [compileSegsTokens, hcs]
      show (match compileSegsTokens (q :: qs) with
            | none => none
            | some rest => some (toks ++ GoRe.lit '/' :: rest)).isSome = true
      rw [hres]
      rfl

/-- C3: pattern compilation is infallible for every syntactically
well-formed pattern — every `/`-separated sequence of segments that are
either literals (free of regexp metacharacters, which per the spec's
section 7 would be the fatal-misconfiguration case carved out of the
infallibility contract) or `:`-prefixed parameters with a non-empty
word-character name — and registration with such a pattern always
succeeds. No hypothesis restricts repeated parameter names: Go's regexp
accepts duplicate capture group names, so a pattern such as `/:id/:id`,
in which the same name appears in two segments, is covered (the witness
instantiates exactly that pattern). -/
theorem compile_infallible_on_wellformed_patterns (pattern : String)
    (hseg : ∀ p ∈ splitOnChar '/' pattern.data, segWellFormed p = true) :
    (compileTranslatedPattern pattern).isSome = true
    ∧ ∀ (rg : handlerRegistry) (h : Handler) (ms : List String),
        (handlerRegistry.register rg pattern h ms).isSome = true := by
  have hst : (compileSegsTokens (splitOnChar '/' pattern.data)).isSome = true :=
    compileSegsTokens_isSome (splitOnChar '/' pattern.data) hseg
  obtain ⟨toks, hres⟩ := Option.isSome_iff_exists.mp hst
  have hcp : compileTranslatedPattern pattern = some (seqList toks) := by
    rw [compileTranslatedPattern, hres]
  refine ⟨by rw [hcp]; rfl, ?_⟩
  intro rg h ms
  rw [handlerRegistry.register, newRoute, hcp]
  rfl

/-- Witness for C3 at the concrete pattern `/:id/:id`, in which the same
parameter name appears in two segments: compilation and registration
succeed, as Go accepts the duplicate capture group name. -/
theorem compile_infallible_on_wellformed_patterns_witness :
    (compileTranslatedPattern "/:id/:id").isSome = true
    ∧ (handlerRegistry.register ⟨[]⟩ "/:id/:id" handlerA ["GET"]).isSome = true :=
  ⟨(compile_infallible_on_wellformed_patterns "/:id/:id" (by decide)).1,
   (compile_infallible_on_wellformed_patterns "/:id/:id" (by decide)).2 ⟨[]⟩ handlerA ["GET"]⟩

end Persistentconn
